import Mathlib

/-!
Shallow embedding of `src/schema.py`: a GraphQL query resolver exposing a
`books` field over a PostgreSQL catalog of books and authors, plus the
point lookup `get_author_by_id`.

Modelling choices:
* A database state `DB` carries the two relations as association lists
  (`authors : id → name`, `books : title × author_id`) together with
  fault-injection fields standing for arbitrary data-access failures the
  driver may raise (`allFault` for the main `fetch_all`, `oneFault` for the
  per-author `fetch_one`).
* The resolver builds a SQL string (`buildQuery`, mirroring lines 67-84 of
  `schema.py`); its execution by the backend is modelled by `fetch_all`,
  whose filter mirrors exactly the conditions the code appends: PostgreSQL
  `author_id = ANY(...)` is list membership and `title ILIKE pattern` is
  case-insensitive SQL LIKE matching (`likeMatch`, with the wildcards
  `%` and `_` and the default backslash escape).  A negative bound in a
  `LIMIT` clause is a PostgreSQL error, modelled as `Err.negativeLimit`.
* Python truthiness of the three optional arguments, as tested by
  `if author_ids:`, `if search:`, `if limit:`, is made explicit
  (`truthyIds`, `truthySearch`, `truthyLimit`).
* Fallible calls return `Except Err`; the resolver's `try/except` block
  re-raises the caught exception unchanged, which is the identity on the
  `.error` case.
-/

/-- GraphQL `Author` object type (schema.py lines 24-26). -/
structure Author where
  name : String
deriving DecidableEq, Repr

/-- GraphQL `Book` object type (schema.py lines 29-32).  The runtime value
passed for `author` may be `None`, which GraphQL serialises as `null`, so the
field is modelled as `Option Author`. -/
structure Book where
  title : String
  author : Option Author
deriving DecidableEq, Repr

/-- Data-access failures raised by the database driver: an injected driver
fault (arbitrary code), or PostgreSQL rejecting a negative `LIMIT` bound. -/
inductive Err where
  | negativeLimit
  | dbFault (code : Nat)
deriving DecidableEq, Repr

/-- Database state seen by one request, with fault injection: `allFault`
makes the main selection's `fetch_all` raise, `oneFault i` makes the
author point lookup `fetch_one` for `id = i` raise. -/
structure DB where
  authors : List (Int × String)
  books : List (String × Int)
  allFault : Option Err := none
  oneFault : Int → Option Err := fun _ => none

/-- Python truthiness of the `author_ids` argument (`if author_ids:`):
false for `None` and for the empty list. -/
def truthyIds : Option (List Int) → Bool
  | none => false
  | some ids => !ids.isEmpty

/-- Python truthiness of the `search` argument (`if search:`):
false for `None` and for the empty string. -/
def truthySearch : Option String → Bool
  | none => false
  | some s => !s.isEmpty

/-- Python truthiness of the `limit` argument (`if limit:`):
false for `None` and for `0`. -/
def truthyLimit : Option Int → Bool
  | none => false
  | some n => n != 0

/-- The `query_conditions` list built in schema.py lines 67-76: the author
membership condition, then the title search condition, each appended only
when its argument is truthy. -/
def query_conditions (author_ids : Option (List Int)) (search : Option String) :
    List String :=
  (if truthyIds author_ids then ["author_id = ANY(:author_ids)"] else []) ++
  (if truthySearch search then ["title ILIKE :search"] else [])

/-- The SQL text after the base selection and the optional WHERE clause
(schema.py lines 78-80). -/
def queryBeforeLimit (author_ids : Option (List Int)) (search : Option String) :
    String :=
  let conds := query_conditions author_ids search
  if conds.isEmpty then "SELECT title, author_id FROM books"
  else "SELECT title, author_id FROM books" ++ " WHERE " ++
    String.intercalate " AND " conds

/-- The full SQL text passed to `fetch_all`, after the optional LIMIT clause
(schema.py lines 82-84). -/
def buildQuery (author_ids : Option (List Int)) (search : Option String)
    (limit : Option Int) : String :=
  if truthyLimit limit then queryBeforeLimit author_ids search ++ " LIMIT :limit"
  else queryBeforeLimit author_ids search

/-- The bound parameter for the search condition: the search value wrapped in
percent wildcards (schema.py line 76). -/
def searchPattern (search : String) : String :=
  "%" ++ search ++ "%"

/-- SQL LIKE matching on lists of characters, pattern first: `%` matches any
(possibly empty) sequence — that is, the rest of the pattern matches some
suffix of the subject — `_` matches exactly one character, a backslash
escapes the next pattern character, anything else matches itself. -/
def likeMatch : List Char → List Char → Bool
  | [], s => s.isEmpty
  | '%' :: ps, s => s.tails.any (fun t => likeMatch ps t)
  | '\\' :: q :: ps, c :: s => (q == c) && likeMatch ps s
  | '\\' :: _, _ => false
  | p :: ps, c :: s => (p = '_' || p == c) && likeMatch ps s
  | _ :: _, [] => false

/-- Lower-casing of a character list, modelling PostgreSQL's case folding of
basic latin letters. -/
def lowerList (l : List Char) : List Char :=
  l.map Char.toLower

/-- PostgreSQL `ILIKE`: LIKE matching after case-folding both the pattern and
the subject. -/
def ilike (pattern : String) (s : String) : Bool :=
  likeMatch (lowerList pattern.toList) (lowerList s.toList)

/-- Row predicate of the WHERE clause the backend evaluates for the query
built by the resolver: the author membership condition and the ILIKE
condition, each active exactly when the code appended it. -/
def rowMatches (author_ids : Option (List Int)) (search : Option String)
    (r : String × Int) : Bool :=
  (if truthyIds author_ids then (author_ids.getD []).contains r.2 else true) &&
  (if truthySearch search then ilike (searchPattern (search.getD "")) r.1
   else true)

/-- Backend execution of the built query by `info.context.db.fetch_all`
(schema.py line 87): an injected driver fault raises; otherwise the books
relation is filtered by the WHERE conditions and capped by LIMIT.  `LIMIT 0`
is never emitted (`if limit:` is false at `0`); a negative bound is a
PostgreSQL error. -/
def fetch_all (db : DB) (author_ids : Option (List Int)) (search : Option String)
    (limit : Option Int) : Except Err (List (String × Int)) :=
  match db.allFault with
  | some e => .error e
  | none =>
    let rows := db.books.filter (rowMatches author_ids search)
    match limit with
    | none => .ok rows
    | some n =>
      if n = 0 then .ok rows
      else if n < 0 then .error .negativeLimit
      else .ok (rows.take n.toNat)

/-- The author point lookup (schema.py lines 35-44): `fetch_one` on
`SELECT id, name FROM authors WHERE id = :author_id` returns the first
matching row or nothing; a populated `Author` is built from a row, absence
becomes `None`.  An injected driver fault raises. -/
def get_author_by_id (db : DB) (author_id : Int) : Except Err (Option Author) :=
  match db.oneFault author_id with
  | some e => .error e
  | none =>
    match db.authors.find? (fun r => r.1 == author_id) with
    | some r => .ok (some { name := r.2 })
    | none => .ok none

/-- The row loop of the resolver (schema.py lines 91-96): for each row, in
order, await the author lookup and build a `Book`; a lookup failure aborts
the whole loop. -/
def resolveRows (db : DB) : List (String × Int) → Except Err (List Book)
  | [] => .ok []
  | r :: rs =>
    match get_author_by_id db r.2 with
    | .error e => .error e
    | .ok author =>
      match resolveRows db rs with
      | .error e => .error e
      | .ok bs => .ok ({ title := r.1, author := author } :: bs)

/-- The `books` resolver (schema.py lines 50-96): run the built query, then
resolve each row.  The `try/except` around `fetch_all` re-raises the caught
exception unchanged, so it is the identity on the error case. -/
def Query.books (db : DB) (author_ids : Option (List Int))
    (search : Option String) (limit : Option Int) : Except Err (List Book) :=
  match fetch_all db author_ids search limit with
  | .error e => .error e
  | .ok rows => resolveRows db rows

/-- The `Book` the resolver builds from a fetched row on the fault-free
path: the title, and the author found in the authors relation, if any. -/
def mkBook (db : DB) (r : String × Int) : Book :=
  { title := r.1,
    author := (db.authors.find? (fun a => a.1 == r.2)).map
      (fun a => { name := a.2 }) }

/-- Containment of `needle` in `hay` as a contiguous sublist. -/
def containsSub (needle : List Char) : List Char → Bool
  | [] => needle.isEmpty
  | c :: rest => needle.isPrefixOf (c :: rest) || containsSub needle rest

/-- Case-insensitive substring containment of strings, the specification's
notion of "title contains the search string in any letter case". -/
def containsCaseInsensitive (needle hay : String) : Bool :=
  containsSub (lowerList needle.toList) (lowerList hay.toList)

/-- Characters with no special meaning in a LIKE pattern: anything other
than the wildcards and the escape character. -/
def literalChars (w : List Char) : Prop :=
  ∀ c ∈ w, c ≠ '%' ∧ c ≠ '_' ∧ c ≠ '\\'

instance (w : List Char) : Decidable (literalChars w) := by
  unfold literalChars
  infer_instance

example : containsCaseInsensitive "foo" "FooBar" = true := by decide
example : containsCaseInsensitive "foo" "bar" = false := by decide
example : ilike (searchPattern "foo") "xFOoy" = true := by decide
example : ilike (searchPattern "f_o") "xfzoy" = true := by decide
example : ilike (searchPattern "%") "abc" = true := by decide
example : ilike (searchPattern "fo") "fxo" = false := by decide

/-!
Helper lemmas, shared by the claim theorems below.
-/

/-- Case folding cannot turn another character into a LIKE metacharacter:
the lower-case image of the basic latin upper-case range avoids them. -/
theorem toLower_meta {c m : Char} (hm : m = '%' ∨ m = '_' ∨ m = '\\')
    (h : Char.toLower c = m) : c = m := by
  simp only [Char.toLower] at h
  split at h
  · rename_i hn
    obtain ⟨h1, h2⟩ := hn
    exfalso
    set n := c.toNat with hdef
    rcases hm with rfl | rfl | rfl <;> interval_cases n <;> revert h <;> decide
  · exact h

/-- Lower-casing preserves the absence of LIKE metacharacters. -/
theorem literalChars_lowerList {w : List Char} (h : literalChars w) :
    literalChars (lowerList w) := by
  intro c hc
  simp only [lowerList, List.mem_map] at hc
  obtain ⟨a, ha, rfl⟩ := hc
  obtain ⟨h1, h2, h3⟩ := h a ha
  refine ⟨fun he => h1 ?_, fun he => h2 ?_, fun he => h3 ?_⟩
  · exact toLower_meta (Or.inl rfl) he
  · exact toLower_meta (Or.inr (Or.inl rfl)) he
  · exact toLower_meta (Or.inr (Or.inr rfl)) he

/-- A lone `%` pattern matches every subject. -/
theorem likeMatch_pct_all (s : List Char) : likeMatch ['%'] s = true := by
  simp only [likeMatch, List.any_eq_true]
  exact ⟨[], by simp [List.mem_tails], rfl⟩

/-- A pattern made of literal characters followed by `%` matches exactly the
subjects the literal part is a prefix of. -/
theorem likeMatch_literal_pct {w : List Char} (hw : literalChars w) :
    ∀ s, likeMatch (w ++ ['%']) s = w.isPrefixOf s := by
  induction w with
  | nil =>
    intro s
    simp [likeMatch_pct_all, List.isPrefixOf]
  | cons a w' ih =>
    intro s
    obtain ⟨ha1, ha2, ha3⟩ := hw a (by simp)
    have hw' : literalChars w' := fun c hc => hw c (by simp [hc])
    cases s with
    | nil =>
      simp [likeMatch, ha1, ha3, List.isPrefixOf]
    | cons c s' =>
      simp [likeMatch, ha1, ha2, ha3, List.isPrefixOf, ih hw' s']

/-- Substring containment, phrased over the suffixes of the subject. -/
theorem containsSub_eq_any_tails (w : List Char) :
    ∀ s, containsSub w s = s.tails.any (fun t => w.isPrefixOf t) := by
  intro s
  induction s with
  | nil => cases w <;> simp [containsSub, List.isPrefixOf]
  | cons c s' ih => simp [containsSub, List.tails_cons, ih]

/-- The wildcard-wrapped pattern built from a metacharacter-free search value
matches exactly the subjects containing it as a contiguous substring. -/
theorem likeMatch_wrapped {w : List Char} (hw : literalChars w) (s : List Char) :
    likeMatch ('%' :: (w ++ ['%'])) s = containsSub w s := by
  rw [containsSub_eq_any_tails]
  simp [likeMatch, likeMatch_literal_pct hw]

/-- Character list of the bound search pattern. -/
theorem searchPattern_toList (s : String) :
    (searchPattern s).toList = '%' :: (s.toList ++ ['%']) := by
  simp [searchPattern, String.toList, String.data_append]

/-- The ILIKE condition the resolver binds is, for metacharacter-free search
values, exactly case-insensitive substring containment. -/
theorem ilike_searchPattern_eq {s : String} (hl : literalChars s.toList)
    (t : String) :
    ilike (searchPattern s) t = containsCaseInsensitive s t := by
  unfold ilike containsCaseInsensitive
  rw [searchPattern_toList]
  have h : lowerList ('%' :: (s.toList ++ ['%'])) =
      '%' :: (lowerList s.toList ++ ['%']) := by
    simp [lowerList]
  rw [h, likeMatch_wrapped (literalChars_lowerList hl)]

/-- On a database whose author lookups are fault-free, the row loop succeeds
and builds one `Book` per row via `mkBook`. -/
theorem resolveRows_ok (db : DB) (hO : ∀ i, db.oneFault i = none) :
    ∀ rows, resolveRows db rows = .ok (rows.map (mkBook db)) := by
  intro rows
  induction rows with
  | nil => rfl
  | cons r rs ih =>
    simp only [resolveRows, get_author_by_id, hO r.2]
    cases hf : db.authors.find? (fun a => a.1 == r.2) <;>
      simp [ih, mkBook, hf]

/-- On the fault-free path the resolver returns one `Book` per fetched row. -/
theorem books_ok {db : DB} {a : Option (List Int)} {s : Option String}
    {l : Option Int} {rows : List (String × Int)}
    (hO : ∀ i, db.oneFault i = none)
    (h : fetch_all db a s l = .ok rows) :
    Query.books db a s l = .ok (rows.map (mkBook db)) := by
  simp [Query.books, h, resolveRows_ok db hO]

/-- With no limit argument, the fault-free selection returns all rows that
satisfy the WHERE conditions. -/
theorem fetch_all_no_limit {db : DB} (hA : db.allFault = none)
    (a : Option (List Int)) (s : Option String) :
    fetch_all db a s none = .ok (db.books.filter (rowMatches a s)) := by
  simp [fetch_all, hA]

/-- With a positive limit, the fault-free selection returns the first `n`
rows that satisfy the WHERE conditions. -/
theorem fetch_all_pos {db : DB} (hA : db.allFault = none)
    (a : Option (List Int)) (s : Option String) {n : Int} (hn : 0 < n) :
    fetch_all db a s (some n) =
      .ok ((db.books.filter (rowMatches a s)).take n.toNat) := by
  have h1 : ¬ n = 0 := by omega
  have h2 : ¬ n < 0 := by omega
  simp [fetch_all, hA, h1, h2]

/-- A list whose filtering leaves exactly one element has that element as
its first match. -/
theorem find?_of_filter_singleton {α : Type} (p : α → Bool) (l : List α)
    (x : α) (h : l.filter p = [x]) : l.find? p = some x := by
  induction l with
  | nil => simp at h
  | cons a t ih =>
    cases hp : p a with
    | false =>
      rw [List.filter_cons_of_neg (by simp [hp])] at h
      rw [List.find?_cons_of_neg _ (by simp [hp])]
      exact ih h
    | true =>
      rw [List.filter_cons_of_pos hp] at h
      injection h with h1 h2
      rw [List.find?_cons_of_pos _ hp, h1]

/-- An author-lookup failure at the first row not covered by earlier
fault-free rows aborts the whole row loop with that error. -/
theorem resolveRows_error (db : DB) (e : Err) :
    ∀ (rows₁ : List (String × Int)) (r : String × Int)
      (rows₂ : List (String × Int)),
      (∀ r' ∈ rows₁, db.oneFault r'.2 = none) →
      db.oneFault r.2 = some e →
      resolveRows db (rows₁ ++ r :: rows₂) = .error e := by
  intro rows₁
  induction rows₁ with
  | nil =>
    intro r rows₂ h1 h2
    simp [resolveRows, get_author_by_id, h2]
  | cons r' t ih =>
    intro r rows₂ h1 h2
    have hh : db.oneFault r'.2 = none := h1 r' (by simp)
    have ht : ∀ x ∈ t, db.oneFault x.2 = none := fun x hx => h1 x (by simp [hx])
    simp only [List.cons_append, resolveRows, get_author_by_id, hh]
    cases hf : db.authors.find? (fun a => a.1 == r'.2) <;>
      simp [ih r rows₂ ht h2]

/-- Peeling a leading percent: the pattern matches as soon as its rest
matches some suffix of the subject. -/
theorem likeMatch_pct_cons (ps s : List Char)
    (h : ∃ t ∈ s.tails, likeMatch ps t = true) :
    likeMatch ('%' :: ps) s = true := by
  have he : likeMatch ('%' :: ps) s = s.tails.any (fun t => likeMatch ps t) := by
    simp [likeMatch]
  rw [he]
  exact List.any_eq_true.mpr h

/-- A triple percent pattern matches every subject. -/
theorem likeMatch_three_pct (t : List Char) :
    likeMatch ['%', '%', '%'] t = true := by
  apply likeMatch_pct_cons
  refine ⟨t, by simp [List.mem_tails], ?_⟩
  apply likeMatch_pct_cons
  exact ⟨t, by simp [List.mem_tails], likeMatch_pct_all t⟩

/-!
Claim theorems.
-/

/-- C1: on any successful selection, a fetched row whose author id has no
matching row in the authors relation still yields a `Book` in the result,
with its author field explicitly `none`; the missing author neither raises
an error nor causes the book to be omitted (the result keeps one book per
fetched row). -/
theorem books_missing_author_null (db : DB) (a : Option (List Int))
    (s : Option String) (l : Option Int) (rows : List (String × Int))
    (r : String × Int)
    (hO : ∀ i, db.oneFault i = none)
    (hrows : fetch_all db a s l = .ok rows)
    (hr : r ∈ rows)
    (hmiss : db.authors.find? (fun x => x.1 == r.2) = none) :
    ∃ bs, Query.books db a s l = .ok bs ∧ bs.length = rows.length ∧
      ({ title := r.1, author := none } : Book) ∈ bs := by
  refine ⟨rows.map (mkBook db), books_ok hO hrows, by simp, ?_⟩
  have h : mkBook db r = { title := r.1, author := none } := by
    simp [mkBook, hmiss]
  exact h ▸ List.mem_map_of_mem (mkBook db) hr

/-- Witness for C1: a single book row referencing author id 1 over an empty
authors relation still produces one book, with a null author. -/
theorem books_missing_author_null_witness :
    ∃ bs, Query.books { authors := [], books := [("b", 1)] } none none none =
        .ok bs ∧
      bs.length = [(("b", 1) : String × Int)].length ∧
      ({ title := "b", author := none } : Book) ∈ bs :=
  books_missing_author_null _ none none none _ ("b", 1)
    (fun _ => rfl) rfl (by simp) rfl

/-- C2 counterexample: with `limit = 0` the argument is present, yet the
built query equals the query built with `limit` absent — no LIMIT clause is
appended, contradicting "appended exactly when limit is present". -/
theorem buildQuery_limit_zero_counterexample :
    buildQuery none none (some 0) = "SELECT title, author_id FROM books" ∧
    buildQuery none none (some 0) = buildQuery none none none ∧
    buildQuery none none (some 0) ≠
      "SELECT title, author_id FROM books" ++ " LIMIT :limit" := by
  refine ⟨rfl, rfl, ?_⟩
  decide

/-- C2 (amended): the WHERE-condition list length equals the number of
present and non-empty filter arguments among author_ids and search (0, 1,
or 2), and the LIMIT cap clause is appended exactly when limit is present
and nonzero. -/
theorem query_conditions_count (a : Option (List Int)) (s : Option String)
    (l : Option Int) :
    (query_conditions a s).length =
      ((if a.getD [] ≠ [] then 1 else 0) + (if s.getD "" ≠ "" then 1 else 0)) ∧
    (buildQuery a s l = queryBeforeLimit a s ++ " LIMIT :limit" ↔
      (l ≠ none ∧ l ≠ some 0)) := by
  constructor
  · have h1 : truthyIds a = true ↔ a.getD [] ≠ [] := by
      cases a with
      | none => simp [truthyIds]
      | some ids => simp [truthyIds, List.isEmpty_iff]
    have h2 : truthySearch s = true ↔ s.getD "" ≠ "" := by
      cases s with
      | none => simp [truthySearch]
      | some st =>
        simp only [truthySearch, Option.getD_some, ne_eq, Bool.not_eq_true']
        rw [Bool.eq_false_iff]
        exact not_congr (String.isEmpty_iff st)
    rcases Bool.eq_false_or_eq_true (truthyIds a) with hta | hta <;>
      rcases Bool.eq_false_or_eq_true (truthySearch s) with hts | hts <;>
        simp [hta, hts] at h1 h2 <;>
          simp [query_conditions, hta, hts, h1, h2]
  · have hq : ∀ q : String, ¬ q = q ++ " LIMIT :limit" := by
      intro q he
      have hlen := congrArg String.length he
      rw [String.length_append] at hlen
      have h13 : (" LIMIT :limit" : String).length = 13 := rfl
      omega
    rcases l with _ | n
    · simp only [buildQuery, truthyLimit, Bool.false_eq_true, if_false]
      simp [hq (queryBeforeLimit a s)]
    · by_cases hn : n = 0
      · subst hn
        simp only [buildQuery, truthyLimit]
        simp [hq (queryBeforeLimit a s)]
      · have htl : truthyLimit (some n) = true := by simp [truthyLimit, hn]
        simp [buildQuery, htl, hn]

/-- C3: passing an empty author_ids list gives exactly the same result as
omitting the argument, on every database state and for every search and
limit argument — the empty list applies no author filter. -/
theorem books_empty_ids_eq_absent (db : DB) (s : Option String)
    (l : Option Int) :
    Query.books db (some []) s l = Query.books db none s l := by
  have h : rowMatches (some []) s = rowMatches none s := by
    funext r
    simp [rowMatches, truthyIds]
  simp only [Query.books, fetch_all, h]

/-- C4: with a non-empty author_ids filter, every returned book is built
from a stored row whose author reference belongs to the given list, and —
when no limit is given — every stored row satisfying the WHERE conditions
contributes its book to the result. -/
theorem books_author_ids_filter (db : DB) (ids : List Int)
    (s : Option String) (l : Option Int)
    (hne : ids ≠ [])
    (hA : db.allFault = none)
    (hO : ∀ i, db.oneFault i = none)
    (hl : l = none ∨ ∃ n : Int, l = some n ∧ 0 ≤ n) :
    ∃ bs, Query.books db (some ids) s l = .ok bs ∧
      (∀ b ∈ bs, ∃ r ∈ db.books, r.2 ∈ ids ∧ b = mkBook db r) ∧
      (l = none → ∀ r ∈ db.books, rowMatches (some ids) s r = true →
        mkBook db r ∈ bs) := by
  have hrows : ∃ rows, fetch_all db (some ids) s l = .ok rows ∧
      rows.Sublist (db.books.filter (rowMatches (some ids) s)) ∧
      (l = none → rows = db.books.filter (rowMatches (some ids) s)) := by
    rcases hl with rfl | ⟨n, rfl, hn⟩
    · exact ⟨_, fetch_all_no_limit hA _ _, List.Sublist.refl _, fun _ => rfl⟩
    · by_cases h0 : n = 0
      · subst h0
        refine ⟨_, ?_, List.Sublist.refl _, by simp⟩
        simp [fetch_all, hA]
      · have hpos : 0 < n := by omega
        exact ⟨_, fetch_all_pos hA _ _ hpos, List.take_sublist _ _, by simp⟩
  obtain ⟨rows, hro, hsub, hfull⟩ := hrows
  have hti : truthyIds (some ids) = true := by
    simp [truthyIds, List.isEmpty_iff, hne]
  refine ⟨rows.map (mkBook db), books_ok hO hro, ?_, ?_⟩
  · intro b hb
    obtain ⟨r, hr, rfl⟩ := List.mem_map.mp hb
    have hrf : r ∈ db.books.filter (rowMatches (some ids) s) := hsub.mem hr
    obtain ⟨hrb, hrm⟩ := List.mem_filter.mp hrf
    refine ⟨r, hrb, ?_, rfl⟩
    simp [rowMatches, hti] at hrm
    exact hrm.1
  · intro hnone r hrb hrm
    rw [hfull hnone]
    exact List.mem_map_of_mem _ (List.mem_filter.mpr ⟨hrb, hrm⟩)

/-- Witness for C4: author filter `[1]` over two rows keeps the row
referencing author 1 and its properties hold. -/
theorem books_author_ids_filter_witness :
    ∃ bs, Query.books ⟨[(1, "A")], [("x", 1), ("y", 2)], none, fun _ => none⟩
        (some [1]) none none = .ok bs ∧
      (∀ b ∈ bs, ∃ r ∈ [(("x", 1) : String × Int), ("y", 2)],
        r.2 ∈ [(1 : Int)] ∧
        b = mkBook ⟨[(1, "A")], [("x", 1), ("y", 2)], none, fun _ => none⟩ r) ∧
      ((none : Option Int) = none →
        ∀ r ∈ [(("x", 1) : String × Int), ("y", 2)],
        rowMatches (some [1]) none r = true →
        mkBook ⟨[(1, "A")], [("x", 1), ("y", 2)], none, fun _ => none⟩ r ∈ bs) :=
  books_author_ids_filter _ [1] none none (by decide) rfl (fun _ => rfl)
    (Or.inl rfl)

/-- C5 counterexample: with search = "%", a book titled "Dune" is returned
although "Dune" does not contain "%" as a substring in any letter case, so
the resolver does not return "exactly the titles containing the search
string". -/
theorem books_search_literal_counterexample :
    Query.books ⟨[], [("Dune", 1)], none, fun _ => none⟩ none (some "%")
        none = .ok [{ title := "Dune", author := none }] ∧
    containsCaseInsensitive "%" "Dune" = false := by
  exact ⟨rfl, by decide⟩

/-- C5 (amended): for every non-empty search value containing none of the
LIKE metacharacters `%`, `_`, `\`, the resolver returns exactly the books
whose title contains the search value as a case-insensitive substring, and
the SQL text carries a bound `:search` placeholder rather than the value
itself. -/
theorem books_search_substring (db : DB) (s : String)
    (hs : s ≠ "") (hlit : literalChars s.toList)
    (hA : db.allFault = none) (hO : ∀ i, db.oneFault i = none) :
    Query.books db none (some s) none =
      .ok ((db.books.filter (fun r => containsCaseInsensitive s r.1)).map
        (mkBook db)) ∧
    buildQuery none (some s) none =
      "SELECT title, author_id FROM books WHERE title ILIKE :search" := by
  have hse : s.isEmpty = false := by
    rw [Bool.eq_false_iff]
    intro hh
    exact hs ((String.isEmpty_iff s).mp hh)
  have hts : truthySearch (some s) = true := by simp [truthySearch, hse]
  constructor
  · have hrm : rowMatches none (some s) =
        fun r => containsCaseInsensitive s r.1 := by
      funext r
      simp [rowMatches, truthyIds, hts, ilike_searchPattern_eq hlit]
    rw [books_ok hO (fetch_all_no_limit hA none (some s)), hrm]
  · simp only [buildQuery, queryBeforeLimit, query_conditions, truthyIds,
      truthyLimit, hts]
    decide

/-- Witness for C5: searching "foo" over titles "Foo" and "bar" keeps
exactly "Foo". -/
theorem books_search_substring_witness :
    Query.books ⟨[(1, "A")], [("Foo", 1), ("bar", 2)], none, fun _ => none⟩
        none (some "foo") none =
      .ok (([(("Foo", 1) : String × Int), ("bar", 2)].filter
          (fun r => containsCaseInsensitive "foo" r.1)).map
        (mkBook ⟨[(1, "A")], [("Foo", 1), ("bar", 2)], none, fun _ => none⟩)) ∧
    buildQuery none (some "foo") none =
      "SELECT title, author_id FROM books WHERE title ILIKE :search" :=
  books_search_substring _ "foo" (by decide) (by decide) rfl (fun _ => rfl)

/-- C6: the author lookup returns a populated `Author` carrying the row's
name when the authors relation holds exactly one matching row, and returns
the explicit absence marker — not an error — when no row matches. -/
theorem get_author_by_id_cases (db : DB) (id : Int)
    (hO : db.oneFault id = none) :
    (∀ i nm, db.authors.filter (fun r => r.1 == id) = [(i, nm)] →
      get_author_by_id db id = .ok (some { name := nm })) ∧
    ((∀ r ∈ db.authors, r.1 ≠ id) → get_author_by_id db id = .ok none) := by
  constructor
  · intro i nm hfil
    have hfind : db.authors.find? (fun r => r.1 == id) = some (i, nm) :=
      find?_of_filter_singleton _ _ _ hfil
    simp [get_author_by_id, hO, hfind]
  · intro hnone
    have hfind : db.authors.find? (fun r => r.1 == id) = none := by
      rw [List.find?_eq_none]
      intro x hx
      simp [hnone x hx]
    simp [get_author_by_id, hO, hfind]

/-- Witness for C6: a one-row authors relation gives a populated author for
id 1 and the absence marker for id 2. -/
theorem get_author_by_id_cases_witness :
    get_author_by_id ⟨[(1, "A")], [], none, fun _ => none⟩ 1 =
      .ok (some { name := "A" }) ∧
    get_author_by_id ⟨[(1, "A")], [], none, fun _ => none⟩ 2 = .ok none :=
  ⟨(get_author_by_id_cases _ 1 rfl).1 1 "A" rfl,
   (get_author_by_id_cases _ 2 rfl).2 (by decide)⟩

/-- C7: a data-access failure of the main selection propagates to the caller
unchanged, and a failure of the author lookup at the first affected row
propagates unchanged as well; in both cases the call yields no list of
books at all (an error, never a partial list). -/
theorem books_error_prop (db : DB) (a : Option (List Int))
    (s : Option String) (l : Option Int) (e : Err) :
    (db.allFault = some e → Query.books db a s l = .error e) ∧
    (∀ (rows₁ : List (String × Int)) (r : String × Int)
      (rows₂ : List (String × Int)),
      fetch_all db a s l = .ok (rows₁ ++ r :: rows₂) →
      (∀ r' ∈ rows₁, db.oneFault r'.2 = none) →
      db.oneFault r.2 = some e →
      Query.books db a s l = .error e) := by
  constructor
  · intro h
    simp [Query.books, fetch_all, h]
  · intro rows₁ r rows₂ hro h1 h2
    simp [Query.books, hro, resolveRows_error db e rows₁ r rows₂ h1 h2]

/-- Witness for C7: an injected selection fault surfaces unchanged, and an
injected author-lookup fault for the only fetched row surfaces unchanged. -/
theorem books_error_prop_witness :
    Query.books ⟨[], [], some (Err.dbFault 7), fun _ => none⟩ none none none =
      .error (Err.dbFault 7) ∧
    Query.books ⟨[], [("b", 1)], none,
        fun i => if i = 1 then some (Err.dbFault 9) else none⟩ none none none =
      .error (Err.dbFault 9) :=
  ⟨(books_error_prop _ none none none (Err.dbFault 7)).1 rfl,
   (books_error_prop _ none none none (Err.dbFault 9)).2 [] ("b", 1) [] rfl
     (by simp) rfl⟩

/-- C8: with a positive limit, the resolver returns the first
`min limit count` qualifying rows as books — exactly `min limit count`
books, in store order. -/
theorem books_limit_cap (db : DB) (a : Option (List Int)) (s : Option String)
    (n : Int) (hn : 0 < n)
    (hA : db.allFault = none) (hO : ∀ i, db.oneFault i = none) :
    ∃ bs, Query.books db a s (some n) = .ok bs ∧
      bs = ((db.books.filter (rowMatches a s)).take n.toNat).map (mkBook db) ∧
      bs.length = min n.toNat (db.books.filter (rowMatches a s)).length := by
  refine ⟨_, books_ok hO (fetch_all_pos hA a s hn), rfl, ?_⟩
  simp [List.length_take]

/-- Witness for C8: limit 2 over five qualifying rows returns exactly two
books. -/
theorem books_limit_cap_witness :
    ∃ bs, Query.books
        ⟨[], [("a", 1), ("b", 2), ("c", 3), ("d", 4), ("e", 5)], none,
          fun _ => none⟩ none none (some 2) = .ok bs ∧
      bs = (([(("a", 1) : String × Int), ("b", 2), ("c", 3), ("d", 4),
          ("e", 5)].filter (rowMatches none none)).take (2 : Int).toNat).map
        (mkBook ⟨[], [("a", 1), ("b", 2), ("c", 3), ("d", 4), ("e", 5)], none,
          fun _ => none⟩) ∧
      bs.length = min (2 : Int).toNat
        ([(("a", 1) : String × Int), ("b", 2), ("c", 3), ("d", 4),
          ("e", 5)].filter (rowMatches none none)).length :=
  books_limit_cap _ none none 2 (by decide) rfl (fun _ => rfl)

/-- C9: limit = 0 is falsy, so no LIMIT clause is emitted and the call
behaves identically to a call with limit absent — all qualifying rows are
returned, not zero rows. -/
theorem books_limit_zero (db : DB) (a : Option (List Int))
    (s : Option String) :
    buildQuery a s (some 0) = buildQuery a s none ∧
    Query.books db a s (some 0) = Query.books db a s none :=
  ⟨rfl, rfl⟩

/-- C10: the search value is not escaped, so search = "%" builds the
pattern `%%%`, which matches every title: all books are returned, even
though "%" is not a literal substring of a title like "Dune". -/
theorem books_percent_wildcard (db : DB)
    (hA : db.allFault = none) (hO : ∀ i, db.oneFault i = none) :
    Query.books db none (some "%") none = .ok (db.books.map (mkBook db)) ∧
    containsCaseInsensitive "%" "Dune" = false := by
  constructor
  · have hts : truthySearch (some "%") = true := rfl
    have hp : lowerList (searchPattern "%").data = ['%', '%', '%'] := by
      decide
    have hrm : rowMatches none (some "%") = fun _ => true := by
      funext r
      simp [rowMatches, truthyIds, hts, ilike, hp, likeMatch_three_pct]
    rw [books_ok hO (fetch_all_no_limit hA none (some "%")), hrm]
    simp
  · decide

/-- Witness for C10: with one book "Dune", searching "%" returns it. -/
theorem books_percent_wildcard_witness :
    Query.books ⟨[], [("Dune", 1)], none, fun _ => none⟩ none (some "%")
        none =
      .ok (([(("Dune", 1) : String × Int)]).map
        (mkBook ⟨[], [("Dune", 1)], none, fun _ => none⟩)) ∧
    containsCaseInsensitive "%" "Dune" = false :=
  books_percent_wildcard _ rfl (fun _ => rfl)
